import Mathlib

/-!
Verification development for the spacecat-sage caption pipeline
(`src-pyloid/caption_processor.py`, `src-pyloid/file_processor.py`,
`src-pyloid/main.py`).

The Python source is shallowly embedded: pure helpers become Lean
functions; the stateful loops (the caption retry loop, the batch loop,
the ingestion queue worker) become state-passing functions, with a fuel
argument standing for the number of loop iterations where a loop is not
structurally recursive.  Python strings are modelled as Lean `String`
(code points), restricted to ASCII behaviour for `lower`/`isdigit`/strip
(every input appearing in the claims is ASCII).  The SQLite `captions`
table (`image_name TEXT PRIMARY KEY, caption TEXT, ...`) is modelled as
an association list with `INSERT OR REPLACE` semantics: the conflicting
row is removed and the new row appended.  Timestamps are not modelled.
-/

namespace Sage

/-! ## String helpers (Python semantics, ASCII fragment) -/

/-- Python `str.isdigit`: non-empty and every character a digit
(ASCII fragment; Python additionally accepts some Unicode digits,
which no input in this development uses). -/
def pyIsDigit (s : String) : Bool :=
  s.length != 0 && s.data.all Char.isDigit

/-- Python `str.lower` (ASCII fragment). -/
def pyLower (s : String) : String :=
  String.mk (s.data.map Char.toLower)

/-- Python `str.strip()`: drop leading and trailing whitespace
(ASCII whitespace fragment: space, tab, CR, LF). -/
def pyStrip (s : String) : String :=
  String.mk (((s.data.dropWhile Char.isWhitespace).reverse.dropWhile
    Char.isWhitespace).reverse)

/-- `occursIn needle hay`: does `needle` occur as a contiguous
subsequence of `hay`?  Models Python's `needle in hay` on strings. -/
def occursIn (needle : List Char) : List Char → Bool
  | [] => needle.isEmpty
  | c :: t => needle.isPrefixOf (c :: t) || occursIn needle t

/-- Python `needle in hay` for strings. -/
def strContains (hay needle : String) : Bool :=
  occursIn needle.data hay.data

/-! ## PromptBuilder: `CaptionProcessor._construct_prompt`
(`caption_processor.py` lines 58-131). -/

/-- The `prompts` sub-dictionary of the settings object, with the
defaults of `_construct_prompt` already applied
(`captionType` defaults to `"Descriptive"`, `captionLength` to
`"medium-length"`, the rest to empty). -/
structure Prompts where
  captionType : String
  captionLength : String
  customPrompt : String
  customName : String
  extraOptions : List String
deriving DecidableEq

/-- One bullet of the extra-options block: Python
`option.replace('\x7bname\x7d', custom_name) if custom_name and '\x7bname\x7d' in option
else option`. -/
def substName (customName option : String) : String :=
  if customName != "" && strContains option "{name}" then
    option.replace "{name}" customName
  else option

/-- The `"\n\nAdditional requirements:\n"` block appended when
`extra_options` is non-empty (`caption_processor.py` lines 127-129). -/
def extraSuffix (p : Prompts) : String :=
  if p.extraOptions.isEmpty then ""
  else "\n\nAdditional requirements:\n" ++
    String.intercalate "\n" (p.extraOptions.map (fun o => "- " ++ substName p.customName o))

/-- The base sentence of `_construct_prompt` before extra options:
the `caption_type` dispatch with the two-way `caption_length.isdigit()`
branch inside each category (`caption_processor.py` lines 67-125). -/
def basePrompt (p : Prompts) : String :=
  if p.captionType = "Custom/VQA" then
    (if p.customPrompt = "" then "Write a descriptive caption for this image."
     else p.customPrompt)
  else
    if p.captionType = "Descriptive" then
      if pyIsDigit p.captionLength then
        "Write a descriptive caption for this image in a formal tone within " ++ p.captionLength ++ " words."
      else "Write a " ++ p.captionLength ++ " descriptive caption for this image in a formal tone."
    else if p.captionType = "Descriptive (Informal)" then
      if pyIsDigit p.captionLength then
        "Write a descriptive caption for this image in a casual tone within " ++ p.captionLength ++ " words."
      else "Write a " ++ p.captionLength ++ " descriptive caption for this image in a casual tone."
    else if p.captionType = "Training Prompt" ∨ p.captionType = "Stable Diffusion" then
      if pyIsDigit p.captionLength then
        "Write a stable diffusion prompt for this image within " ++ p.captionLength ++ " words."
      else "Write a " ++ p.captionLength ++ " stable diffusion prompt for this image."
    else if p.captionType = "MidJourney" then
      if pyIsDigit p.captionLength then
        "Write a MidJourney prompt for this image within " ++ p.captionLength ++ " words."
      else "Write a " ++ p.captionLength ++ " MidJourney prompt for this image."
    else if p.captionType = "Booru tag list" then
      if pyIsDigit p.captionLength then
        "Write a list of Booru tags for this image within " ++ p.captionLength ++ " words."
      else "Write a " ++ p.captionLength ++ " list of Booru tags for this image."
    else if p.captionType = "Booru-like tag list" then
      if pyIsDigit p.captionLength then
        "Write a list of Booru-like tags for this image within " ++ p.captionLength ++ " words."
      else "Write a " ++ p.captionLength ++ " list of Booru-like tags for this image."
    else if p.captionType = "Art Critic" then
      if pyIsDigit p.captionLength then
        "Analyze this image like an art critic would with information about its composition, style, symbolism, the use of color, light, any artistic movement it might belong to, etc. Keep it within " ++ p.captionLength ++ " words."
      else
        "Analyze this image like an art critic would with information about its composition, style, symbolism, the use of color, light, any artistic movement it might belong to, etc. Keep it " ++ p.captionLength ++ "."
    else if p.captionType = "Product Listing" then
      if pyIsDigit p.captionLength then
        "Write a caption for this image as though it were a product listing. Keep it under " ++ p.captionLength ++ " words."
      else "Write a " ++ p.captionLength ++ " caption for this image as though it were a product listing."
    else if p.captionType = "Social Media Post" then
      if pyIsDigit p.captionLength then
        "Write a caption for this image as if it were being used for a social media post. Limit the caption to " ++ p.captionLength ++ " words."
      else "Write a " ++ p.captionLength ++ " caption for this image as if it were being used for a social media post."
    else
      if pyIsDigit p.captionLength then
        "Write a descriptive caption for this image in a formal tone within " ++ p.captionLength ++ " words."
      else "Write a " ++ p.captionLength ++ " descriptive caption for this image in a formal tone."

/-- `CaptionProcessor._construct_prompt`. -/
def constructPrompt (p : Prompts) : String :=
  basePrompt p ++ extraSuffix p

/-! ## RejectionClassifier: `CaptionProcessor._is_rejection_response`
(`caption_processor.py` lines 237-252). -/

/-- The fixed `rejection_indicators` list. -/
def rejectionIndicators : List String :=
  ["sorry", "i apologize", "cannot", "unable to", "failed to",
   "could not", "error", "invalid", "not able to"]

/-- `CaptionProcessor._is_rejection_response`: true on an empty (falsy)
caption, otherwise true iff the lowercased caption contains one of the
nine indicator phrases. -/
def isRejectionResponse (caption : String) : Bool :=
  if caption = "" then true
  else rejectionIndicators.any (fun ind => strContains (pyLower caption) ind)

/-! ## Theorems for claims C2 and C8 -/

/-- Claim C2, counterexample: with `captionType = "Descriptive"` and
`captionLength = "any"` (empty extra options) the built prompt is
`"Write a any descriptive caption for this image in a formal tone."` —
the length token is inserted verbatim — and not the claimed string
without a length clause.  The code has no special branch for `"any"`. -/
theorem c2_counterexample :
    constructPrompt ⟨"Descriptive", "any", "", "", []⟩
      = "Write a any descriptive caption for this image in a formal tone." ∧
    constructPrompt ⟨"Descriptive", "any", "", "", []⟩
      ≠ "Write a descriptive caption for this image in a formal tone." := by
  constructor
  · rfl
  · decide

/-- Claim C2, amended: for every `CaptionConfig` with
`captionType = "Descriptive"`, `captionLength = "any"` and empty
`extraOptions`, the built prompt is exactly
`"Write a any descriptive caption for this image in a formal tone."`:
the `captionLength` value is inserted verbatim, with no unconstrained
special case for `"any"`. -/
theorem c2_amended (cp cn : String) :
    constructPrompt ⟨"Descriptive", "any", cp, cn, []⟩
      = "Write a any descriptive caption for this image in a formal tone." := by
  have h : extraSuffix ⟨"Descriptive", "any", cp, cn, []⟩ = "" := rfl
  unfold constructPrompt
  rw [h, String.append_empty]
  rfl

/-- Claim C8: `_is_rejection_response` returns true on the empty
caption, false on `"A cat sits on a red chair."`, true on
`"I'm sorry, I cannot describe this image."`, and in general returns
true exactly when the caption is empty or its lowercasing contains one
of the nine fixed phrases. -/
theorem c8_rejection_classifier :
    isRejectionResponse "" = true ∧
    isRejectionResponse "A cat sits on a red chair." = false ∧
    isRejectionResponse "I\x27m sorry, I cannot describe this image." = true ∧
    ∀ c : String, isRejectionResponse c = true ↔
      (c = "" ∨ strContains (pyLower c) "sorry" = true ∨
       strContains (pyLower c) "i apologize" = true ∨
       strContains (pyLower c) "cannot" = true ∨
       strContains (pyLower c) "unable to" = true ∨
       strContains (pyLower c) "failed to" = true ∨
       strContains (pyLower c) "could not" = true ∨
       strContains (pyLower c) "error" = true ∨
       strContains (pyLower c) "invalid" = true ∨
       strContains (pyLower c) "not able to" = true) := by
  refine ⟨by decide, by decide, by decide, ?_⟩
  intro c
  by_cases hc : c = ""
  · simp [isRejectionResponse, hc]
  · simp [isRejectionResponse, hc, rejectionIndicators, List.any_cons, List.any_nil]

/-! ## Substring-occurrence lemmas -/

theorem isPrefixOf_append_self (l t : List Char) : l.isPrefixOf (l ++ t) = true := by
  induction l with
  | nil => simp [List.isPrefixOf]
  | cons a as ih => simp [List.isPrefixOf, ih]

theorem occursIn_nil_needle (l : List Char) : occursIn [] l = true := by
  cases l <;> simp [occursIn, List.isPrefixOf]

theorem occursIn_self_append (n post : List Char) : occursIn n (n ++ post) = true := by
  cases n with
  | nil => exact occursIn_nil_needle post
  | cons c m =>
    show occursIn (c :: m) (c :: (m ++ post)) = true
    simp only [occursIn]
    rw [show ((c :: m).isPrefixOf (c :: (m ++ post))) = true from
      isPrefixOf_append_self (c :: m) post]
    simp

theorem occursIn_parts (pre n post : List Char) : occursIn n (pre ++ n ++ post) = true := by
  induction pre with
  | nil =>
    show occursIn n (n ++ post) = true
    exact occursIn_self_append n post
  | cons a pre ih =>
    show occursIn n (a :: (pre ++ n ++ post)) = true
    simp only [occursIn]
    rw [show occursIn n (pre ++ n ++ post) = true from ih]
    simp

theorem strContains_parts (a b c : String) : strContains (a ++ b ++ c) b = true := by
  unfold strContains
  rw [String.data_append, String.data_append]
  exact occursIn_parts a.data b.data c.data

/-- The common shape of the digit branches: a prompt of the form
`L ++ "within " ++ len ++ " words." ++ tail` contains the substring
`"within " ++ len ++ " words"`. -/
theorem within_branch (L len S : String) :
    strContains (L ++ "within " ++ len ++ " words." ++ S)
      ("within " ++ len ++ " words") = true := by
  unfold strContains
  simp only [String.data_append]
  rw [show ([' ', 'w', 'o', 'r', 'd', 's', '.'] : List Char)
      = [' ', 'w', 'o', 'r', 'd', 's'] ++ ['.'] from by decide]
  simpa only [List.append_assoc] using
    occursIn_parts L.data
      (['w', 'i', 't', 'h', 'i', 'n', ' '] ++ len.data ++ [' ', 'w', 'o', 'r', 'd', 's'])
      (['.'] ++ S.data)

/-! ## Theorems for claim C3 -/

/-- Claim C3, counterexample: for `captionType = "Product Listing"` and
the all-digit `captionLength = "42"` the built prompt says
`"Keep it under 42 words."` and does not contain the substring
`"within 42 words"`, so the property does not hold for every
`captionType`. -/
theorem c3_counterexample :
    constructPrompt ⟨"Product Listing", "42", "", "", []⟩
      = "Write a caption for this image as though it were a product listing. Keep it under 42 words." ∧
    strContains (constructPrompt ⟨"Product Listing", "42", "", "", []⟩)
      "within 42 words" = false := by
  constructor
  · rfl
  · decide

set_option maxRecDepth 8000 in
/-- Claim C3, amended: for every configuration whose `captionLength` is
an all-digit string and whose `captionType` is not `"Custom/VQA"`
(which ignores the length), not `"Product Listing"` (which phrases the
bound as `"under N words"`), and not `"Social Media Post"` (which
phrases it as `"Limit the caption to N words"`), the built prompt
contains the literal substring `"within N words"`. -/
theorem c3_amended (p : Prompts) (hdig : pyIsDigit p.captionLength = true)
    (h1 : p.captionType ≠ "Custom/VQA") (h2 : p.captionType ≠ "Product Listing")
    (h3 : p.captionType ≠ "Social Media Post") :
    strContains (constructPrompt p) ("within " ++ p.captionLength ++ " words") = true := by
  unfold constructPrompt basePrompt
  rw [if_neg h1]
  by_cases hA : p.captionType = "Descriptive"
  · rw [if_pos hA, if_pos hdig,
      show ("Write a descriptive caption for this image in a formal tone within " : String)
        = "Write a descriptive caption for this image in a formal tone " ++ "within " from by decide]
    exact within_branch _ _ _
  rw [if_neg hA]
  by_cases hB : p.captionType = "Descriptive (Informal)"
  · rw [if_pos hB, if_pos hdig,
      show ("Write a descriptive caption for this image in a casual tone within " : String)
        = "Write a descriptive caption for this image in a casual tone " ++ "within " from by decide]
    exact within_branch _ _ _
  rw [if_neg hB]
  by_cases hC : p.captionType = "Training Prompt" ∨ p.captionType = "Stable Diffusion"
  · rw [if_pos hC, if_pos hdig,
      show ("Write a stable diffusion prompt for this image within " : String)
        = "Write a stable diffusion prompt for this image " ++ "within " from by decide]
    exact within_branch _ _ _
  rw [if_neg hC]
  by_cases hD : p.captionType = "MidJourney"
  · rw [if_pos hD, if_pos hdig,
      show ("Write a MidJourney prompt for this image within " : String)
        = "Write a MidJourney prompt for this image " ++ "within " from by decide]
    exact within_branch _ _ _
  rw [if_neg hD]
  by_cases hE : p.captionType = "Booru tag list"
  · rw [if_pos hE, if_pos hdig,
      show ("Write a list of Booru tags for this image within " : String)
        = "Write a list of Booru tags for this image " ++ "within " from by decide]
    exact within_branch _ _ _
  rw [if_neg hE]
  by_cases hF : p.captionType = "Booru-like tag list"
  · rw [if_pos hF, if_pos hdig,
      show ("Write a list of Booru-like tags for this image within " : String)
        = "Write a list of Booru-like tags for this image " ++ "within " from by decide]
    exact within_branch _ _ _
  rw [if_neg hF]
  by_cases hG : p.captionType = "Art Critic"
  · rw [if_pos hG, if_pos hdig,
      show ("Analyze this image like an art critic would with information about its composition, style, symbolism, the use of color, light, any artistic movement it might belong to, etc. Keep it within " : String)
        = "Analyze this image like an art critic would with information about its composition, style, symbolism, the use of color, light, any artistic movement it might belong to, etc. Keep it " ++ "within " from by decide]
    exact within_branch _ _ _
  rw [if_neg hG, if_neg h2, if_neg h3, if_pos hdig,
    show ("Write a descriptive caption for this image in a formal tone within " : String)
      = "Write a descriptive caption for this image in a formal tone " ++ "within " from by decide]
  exact within_branch _ _ _

/-- Witness for `c3_amended` at `captionType = "Descriptive"`,
`captionLength = "42"`. -/
theorem c3_amended_witness :
    pyIsDigit "42" = true ∧
    strContains (constructPrompt ⟨"Descriptive", "42", "", "", []⟩)
      ("within " ++ "42" ++ " words") = true :=
  ⟨by decide, c3_amended ⟨"Descriptive", "42", "", "", []⟩ (by decide) (by decide)
    (by decide) (by decide)⟩

/-! ## CaptionStore: the `captions` relation
(`main.py` `FileAPI.init_db` lines 188-212: `image_name TEXT PRIMARY
KEY, caption TEXT, ...`; writes `INSERT OR REPLACE` in
`FileAPI.save_caption` lines 378-396 and in the ingestion/generation
paths; reads in `FileAPI.get_caption` lines 398-416). -/

/-- The rows of the `captions` relation in storage order:
`(image_name, caption)` pairs.  The timestamp columns are not
modelled. -/
abbrev CaptionsTable := List (String × String)

/-- `INSERT OR REPLACE INTO captions (image_name, caption) VALUES (?, ?)`:
SQLite resolves the primary-key conflict by deleting every row with the
same `image_name` and inserting the new row. -/
def saveCaption (t : CaptionsTable) (imageName caption : String) : CaptionsTable :=
  t.filter (fun r => r.1 != imageName) ++ [(imageName, caption)]

/-- `SELECT caption FROM captions WHERE image_name = ?` followed by
`fetchone()`: the first matching row, if any. -/
def lookupCaption (t : CaptionsTable) (imageName : String) : Option String :=
  (t.find? (fun r => r.1 == imageName)).map (fun r => r.2)

/-- The number of rows stored for a given `image_name`. -/
def rowsFor (t : CaptionsTable) (imageName : String) : Nat :=
  (t.filter (fun r => r.1 == imageName)).length

/-- `FileAPI.get_caption`: with no active session the bridge returns an
error payload; otherwise `caption = result[0] if result else ""` — a
missing row is reported as a successful empty-string caption.
(`sessionDir = none` stands for Python's falsy `self.session_dir`.) -/
def get_caption (sessionDir : Option String) (t : CaptionsTable) (imageName : String) :
    Except String String :=
  match sessionDir with
  | none => .error "No active session"
  | some _ => .ok ((lookupCaption t imageName).getD "")

theorem find?_eq_filter_ne_none (t : CaptionsTable) (k : String) :
    (t.filter (fun r => r.1 != k)).find? (fun r => r.1 == k) = none := by
  rw [List.find?_eq_none]
  intro x hx hc
  have h : (x.1 != k) = true := (List.mem_filter.mp hx).2
  rw [beq_iff_eq] at hc
  rw [bne_iff_ne] at h
  exact h hc

theorem lookup_save_same (t : CaptionsTable) (k v : String) :
    lookupCaption (saveCaption t k v) k = some v := by
  unfold lookupCaption saveCaption
  rw [List.find?_append, find?_eq_filter_ne_none]
  simp

theorem save_save_collapse (t : CaptionsTable) (k a b : String) :
    saveCaption (saveCaption t k a) k b = saveCaption t k b := by
  unfold saveCaption
  simp [List.filter_append, List.filter_filter]

theorem rowsFor_save (t : CaptionsTable) (k v : String) :
    rowsFor (saveCaption t k v) k = 1 := by
  unfold rowsFor saveCaption
  simp [List.filter_append, List.filter_filter]

/-- Claim C7: writing caption `a` and then caption `b` for the same
image identifier leaves `getCaption` returning `b` and exactly one
stored row for that identifier (`INSERT OR REPLACE` against the
`image_name` primary key never duplicates), and a repeated identical
write is idempotent. -/
theorem c7_upsert_last_write_wins (t : CaptionsTable) (k a b : String) :
    lookupCaption (saveCaption (saveCaption t k a) k b) k = some b ∧
    rowsFor (saveCaption (saveCaption t k a) k b) k = 1 ∧
    saveCaption (saveCaption t k a) k a = saveCaption t k a := by
  refine ⟨lookup_save_same _ _ _, ?_, save_save_collapse t k a a⟩
  rw [save_save_collapse]
  exact rowsFor_save t k b

/-- Claim C10: for an image identifier with no stored row,
`FileAPI.get_caption` (with an active session) succeeds with an
empty-string caption rather than an error, and its answer is identical
to the one for a stored row whose caption is the empty string. -/
theorem c10_get_caption_absent (sd : String) (t : CaptionsTable) (k : String)
    (habsent : lookupCaption t k = none) :
    get_caption (some sd) t k = .ok "" ∧
    get_caption (some sd) (saveCaption t k "") k = .ok "" := by
  constructor
  · simp [get_caption, habsent]
  · simp [get_caption, lookup_save_same]

/-- Witness for `c10_get_caption_absent` on the empty table. -/
theorem c10_get_caption_absent_witness :
    lookupCaption [] "img.jpg" = none ∧
    (get_caption (some "sess") [] "img.jpg" = .ok "" ∧
     get_caption (some "sess") (saveCaption [] "img.jpg" "") "img.jpg" = .ok "") :=
  ⟨rfl, c10_get_caption_absent "sess" [] "img.jpg" rfl⟩

/-! ## ModelClient: `CaptionProcessor._generate_caption_with_openai_sdk`
(`caption_processor.py` lines 254-314).

The whole body sits inside `try: ... except Exception as e: return
json.dumps({"error": str(e)})`, and the `await` of the in-flight task
is additionally wrapped in `except asyncio.CancelledError: return
json.dumps({"error": "Caption generation cancelled"})`.  Consequently
the helper never raises: every outcome of the remote call is converted
into a returned payload, which is either `{"caption": ...}` or
`{"error": ...}`.  `ApiEvent` is the outcome of the remote call as seen
at that `await`; `SdkJson` is the returned payload. -/

/-- Outcome of one remote chat-completion call. -/
inductive ApiEvent where
  | raises (msg : String)
  | cancelled
  | content (text : String)
  | empty
deriving DecidableEq

/-- The payload returned by `_generate_caption_with_openai_sdk`:
either a `caption` key or an `error` key. -/
inductive SdkJson where
  | caption (text : String)
  | error (msg : String)
deriving DecidableEq

/-- Does the payload carry the `error` key (the generic failure shape)? -/
def SdkJson.isError : SdkJson → Bool
  | .caption _ => false
  | .error _ => true

/-- `_generate_caption_with_openai_sdk` as a function of the call
outcome (the image read is assumed to succeed — the engine has already
checked the file exists; a read failure would be yet another caught
exception, i.e. another `.error` payload). -/
def sdkCall : ApiEvent → SdkJson
  | .raises msg => .error msg
  | .cancelled => .error "Caption generation cancelled"
  | .content text =>
      if isRejectionResponse text then .error "Model politely declined the image"
      else .caption text
  | .empty => .error "No caption generated"

/-! ## CaptionGenerationEngine: the retry loop of
`CaptionProcessor._generate_caption` (`caption_processor.py` lines
171-227; `_generate_caption_for_batch` lines 409-465 is identical).

The loop is `while retry_count < max_retries` with `max_retries = 3`.
Its body awaits the sdk helper, `json.loads` the returned payload
(always valid JSON, so the `json.JSONDecodeError` branch never fires),
and only acts when the payload has a `caption` key: re-classify, save
to the `captions` table, return success.  When the payload is an
`error` payload the body simply falls through and iterates again.  The
`except Exception` branch — the only place where `retry_count` is
incremented, `asyncio.sleep(1)` is awaited, and the loop can break to
the terminal `Failed after {max_retries} attempts` return — can only
run if the awaited helper raises, which it never does (see above).
The loop is therefore modelled with a fuel argument counting
iterations; `none` means the loop is still running after `fuel`
iterations. -/

/-- A parsed engine payload: the success dict
`{"caption", "image_name", "status": "success"}` or an error dict
`{"error", "image_name", "status": "error"}`. -/
inductive EngineResult where
  | success (imageName caption : String)
  | failure (imageName msg : String)
deriving DecidableEq

/-- The retry loop of `_generate_caption`, driven by the per-attempt
call outcomes `ev`.  Arguments: fuel, attempt index, `retry_count`,
the `captions` table.  Returns the terminal payload and the table, or
`none` if the loop has not terminated within `fuel` iterations. -/
def engineLoop (imageName : String) (ev : Nat → ApiEvent) :
    Nat → Nat → Nat → CaptionsTable → Option (EngineResult × CaptionsTable)
  | 0, _, _, _ => none
  | fuel + 1, attempt, retryCount, store =>
    if retryCount < 3 then
      match sdkCall (ev attempt) with
      | .caption c =>
          if isRejectionResponse c then
            engineLoop imageName ev fuel (attempt + 1) retryCount store
          else
            some (.success imageName c, saveCaption store imageName c)
      | .error _ =>
          engineLoop imageName ev fuel (attempt + 1) retryCount store
    else
      some (.failure imageName "Failed after 3 attempts", store)

theorem engineLoop_all_error_none (imageName : String) (ev : Nat → ApiEvent)
    (h : ∀ n, (sdkCall (ev n)).isError = true) :
    ∀ fuel attempt store, engineLoop imageName ev fuel attempt 0 store = none := by
  intro fuel
  induction fuel with
  | zero => intro _ _; rfl
  | succ fuel ih =>
    intro attempt store
    have h3 : (0 : Nat) < 3 := by norm_num
    cases hs : sdkCall (ev attempt) with
    | caption c =>
      have := h attempt
      rw [hs] at this
      exact absurd this (by simp [SdkJson.isError])
    | error m =>
      show engineLoop imageName ev (fuel + 1) attempt 0 store = none
      unfold engineLoop
      rw [if_pos h3, hs]
      exact ih (attempt + 1) store

/-- Claim C1 (code bug): for a request whose ModelClient call raises a
transport/API failure on every attempt, the retry loop of
`_generate_caption` never terminates.  The sdk helper converts every
raised exception into an `error` payload; the loop body does nothing
with an `error` payload, so `retry_count` is never incremented, no
delay is awaited, and neither the `Failure{ExhaustedRetries}` return
nor any CaptionStore write is ever reached: after any number `fuel` of
iterations the loop is still running (`none`), contradicting the
claimed "at most 3 attempts, then terminate". -/
theorem c1_transport_failure_loop_never_terminates
    (fuel : Nat) (imageName msg : String) (store : CaptionsTable) :
    engineLoop imageName (fun _ => .raises msg) fuel 0 0 store = none :=
  engineLoop_all_error_none imageName (fun _ => .raises msg)
    (fun _ => rfl) fuel 0 store

/-- Claim C9, counterexample: the result surfaced for a cancelled
in-flight call is `SdkJson.error "Caption generation cancelled"` — the
same error-shaped payload as a generic transport failure, not a
distinct `Cancelled` outcome — and the engine's retry loop treats it
exactly like a failed attempt (it keeps looping instead of returning a
terminal cancelled outcome). -/
theorem c9_counterexample :
    sdkCall .cancelled = .error "Caption generation cancelled" ∧
    (sdkCall .cancelled).isError = true ∧
    (sdkCall (.raises "connection reset")).isError = true ∧
    engineLoop "a.jpg" (fun _ => .cancelled) 5 0 0 [] = none :=
  ⟨rfl, rfl, rfl, rfl⟩

/-- Claim C9, amended: cancelling the in-flight call surfaces as an
error payload carrying the fixed message
`"Caption generation cancelled"` — structurally the generic failure
shape, distinguishable from other failures only by the message text —
and the single-request engine treats that payload as a failed attempt
(the retry loop continues) rather than as a distinct terminal
`Cancelled` outcome; cancellation therefore is accounted exactly like
an error by the engine. -/
theorem c9_amended (fuel attempt : Nat) (name : String) (store : CaptionsTable) :
    sdkCall .cancelled = .error "Caption generation cancelled" ∧
    (sdkCall .cancelled).isError = (sdkCall (.raises "boom")).isError ∧
    engineLoop name (fun _ => .cancelled) fuel attempt 0 store = none :=
  ⟨rfl, rfl,
    engineLoop_all_error_none name (fun _ => .cancelled) (fun _ => rfl) fuel attempt store⟩

/-! ## BatchCoordinator: `CaptionProcessor.generate_batch_captions`
(`caption_processor.py` lines 322-369).

Per item `i` the code emits a progress event `{current: i+1, total,
processing}`, runs the per-item engine to completion, appends the
parsed payload to `results`, and emits the same progress event again.
`except asyncio.CancelledError` emits `{"type": "batch_cancelled",
"processed": i}` and returns; `except Exception` appends an error
payload to `results` (skipping the second progress emit) and
continues.  After the loop the code emits `{"type": "batch_complete",
"results": results}`.  `ItemBehavior` is what
`run_until_complete(_generate_caption_for_batch(name))` does for one
item; all emissions (both the `progress` and the `result` signal) are
collected in order into one event list. -/

/-- What processing one batch item does: return a parsed payload,
raise `asyncio.CancelledError`, or raise some other exception. -/
inductive ItemBehavior where
  | ok (r : EngineResult)
  | raiseCancelled
  | raiseExc (msg : String)
deriving DecidableEq

/-- One emission of the batch run. -/
inductive BatchEvent where
  | progress (current total : Nat) (processing : String)
  | batchCancelled (processed : Nat)
  | batchComplete (results : List EngineResult)
deriving DecidableEq

/-- The `for i, image_name in enumerate(image_names)` loop of
`generate_batch_captions`, accumulating `results` and the ordered
emissions. -/
def runBatchFrom (total : Nat) :
    Nat → List (String × ItemBehavior) → List EngineResult → List BatchEvent →
    List BatchEvent
  | _, [], acc, events => events ++ [.batchComplete acc]
  | i, (name, b) :: rest, acc, events =>
    match b with
    | .ok r =>
        runBatchFrom total (i + 1) rest (acc ++ [r])
          (events ++ [.progress (i + 1) total name] ++ [.progress (i + 1) total name])
    | .raiseCancelled =>
        events ++ [.progress (i + 1) total name] ++ [.batchCancelled i]
    | .raiseExc m =>
        runBatchFrom total (i + 1) rest (acc ++ [.failure name m])
          (events ++ [.progress (i + 1) total name])

/-- `CaptionProcessor.generate_batch_captions`: the ordered emissions
of one batch run. -/
def generate_batch_captions (items : List (String × ItemBehavior)) : List BatchEvent :=
  runBatchFrom items.length 0 items [] []

/-- The batch scenario of claim C4: items `a.jpg`, `b.jpg`, `c.jpg`;
the first two complete, cancellation is observed while processing
`c.jpg` (i.e. after the progress events for `b.jpg`, with outcomes for
exactly `a.jpg` and `b.jpg` accumulated). -/
def c4Items : List (String × ItemBehavior) :=
  [("a.jpg", .ok (.success "a.jpg" "caption a")),
   ("b.jpg", .ok (.success "b.jpg" "caption b")),
   ("c.jpg", .raiseCancelled)]

/-- Claim C4, counterexample: in the scenario where cancellation is
observed after the progress events for `b.jpg` (outcomes for exactly
`a.jpg` and `b.jpg` accumulated), the terminal emission is
`batch_cancelled` carrying only the count `processed = 2` — no event of
the run carries the accumulated outcomes — and the emitted progress
`current` values are `1,1,2,2,3` (a progress event for `c.jpg` fires
before cancellation is observed), not `1,2`. -/
theorem c4_counterexample :
    generate_batch_captions c4Items =
      [.progress 1 3 "a.jpg", .progress 1 3 "a.jpg",
       .progress 2 3 "b.jpg", .progress 2 3 "b.jpg",
       .progress 3 3 "c.jpg", .batchCancelled 2] ∧
    (generate_batch_captions c4Items).getLast? = some (.batchCancelled 2) ∧
    (generate_batch_captions c4Items).all
      (fun e => match e with | .batchComplete _ => false | _ => true) = true ∧
    (generate_batch_captions c4Items).filterMap
      (fun e => match e with | .progress c _ _ => some c | _ => none) = [1, 1, 2, 2, 3] :=
  ⟨rfl, rfl, rfl, rfl⟩

/-- Claim C4, amended: in that scenario the run terminates with a
`batch_cancelled` emission carrying the count of fully processed items
(`processed = 2`, i.e. `a.jpg` and `b.jpg`) — not their outcomes — and
before it the run emits progress events with `current` values
`1,1,2,2,3`: one before and one after each completed item and one
before the item during which cancellation was observed. -/
theorem c4_amended (ra rb : EngineResult) :
    generate_batch_captions
      [("a.jpg", .ok ra), ("b.jpg", .ok rb), ("c.jpg", .raiseCancelled)] =
      [.progress 1 3 "a.jpg", .progress 1 3 "a.jpg",
       .progress 2 3 "b.jpg", .progress 2 3 "b.jpg",
       .progress 3 3 "c.jpg", .batchCancelled 2] := rfl

/-! ## IEEE-754 binary64 model of the progress computation

`FileProcessor.run` computes its progress as
`int((files_processed / total_files) * 100)` (`file_processor.py`
line 223): two correctly rounded binary64 operations — the true
division, then the multiplication by the exactly representable 100 —
followed by `int(...)` truncation toward zero.  This section
implements that arithmetic exactly over `Nat`/`ℤ`: every intermediate
float value here is a nonnegative dyadic rational `m * 2 ^ g`, and
`rnFrac n d` computes the binary64 (round-to-nearest, ties-to-even)
value of `n / d` with the quantum clamped at the subnormal
`2 ^ (-1074)`.  Overflow to infinity is not modelled: it would need a
value of at least `2 ^ 1024`, while in `run` the invariant
`files_processed ≤ total_files` keeps every value at most slightly
above 100. -/

/-- Fuel-driven floor of the base-2 logarithm. -/
def log2Go : Nat → Nat → Nat
  | 0, _ => 0
  | fuel + 1, m => if m ≤ 1 then 0 else log2Go fuel (m / 2) + 1

/-- Floor of `log₂ n` for `1 ≤ n` (and `0` at `0`). -/
def natLog2 (n : Nat) : Nat := log2Go n n

theorem log2Go_spec : ∀ fuel m : Nat, 1 ≤ m → m ≤ fuel →
    2 ^ log2Go fuel m ≤ m ∧ m < 2 ^ (log2Go fuel m + 1) := by
  intro fuel
  induction fuel with
  | zero => intro m h1 h2; omega
  | succ fuel ih =>
    intro m h1 h2
    by_cases hm : m ≤ 1
    · have hm1 : m = 1 := by omega
      subst hm1
      simp [log2Go]
    · have hdiv := Nat.div_add_mod m 2
      have hmod : m % 2 < 2 := Nat.mod_lt _ (by omega)
      have hlt : m / 2 < m := Nat.div_lt_self (by omega) (by omega)
      have ihs := ih (m / 2) (by omega) (by omega)
      have heq : log2Go (fuel + 1) m = log2Go fuel (m / 2) + 1 := by
        simp [log2Go, hm]
      rw [heq]
      obtain ⟨ia, ib⟩ := ihs
      have e1 : (2 : Nat) ^ (log2Go fuel (m / 2) + 1) = 2 * 2 ^ log2Go fuel (m / 2) := by
        rw [Nat.pow_succ]; ring
      have e2 : (2 : Nat) ^ (log2Go fuel (m / 2) + 1 + 1)
          = 2 * 2 ^ (log2Go fuel (m / 2) + 1) := by
        rw [Nat.pow_succ]; ring
      omega

theorem natLog2_spec (n : Nat) (h : 1 ≤ n) :
    2 ^ natLog2 n ≤ n ∧ n < 2 ^ (natLog2 n + 1) :=
  log2Go_spec n n h (le_refl n)

/-- Floor of `log₂ (n / d)` for positive naturals `n`, `d`. -/
def ratFloorLog2 (n d : Nat) : ℤ :=
  if d * 2 ^ natLog2 n ≤ n * 2 ^ natLog2 d then (natLog2 n : ℤ) - natLog2 d
  else (natLog2 n : ℤ) - natLog2 d - 1

theorem zpow_sub_cast (a b : Nat) :
    (2 : ℚ) ^ ((a : ℤ) - b) = (2 : ℚ) ^ a / (2 : ℚ) ^ b := by
  rw [zpow_sub₀ (by norm_num : (2 : ℚ) ≠ 0), zpow_natCast, zpow_natCast]

theorem ratFloorLog2_spec (n d : Nat) (hn : 1 ≤ n) (hd : 1 ≤ d) :
    (2 : ℚ) ^ ratFloorLog2 n d ≤ (n : ℚ) / d ∧
    (n : ℚ) / d < 2 ^ (ratFloorLog2 n d + 1) := by
  obtain ⟨na, nb⟩ := natLog2_spec n hn
  obtain ⟨da, db⟩ := natLog2_spec d hd
  have hdq : (0 : ℚ) < d := by exact_mod_cast hd
  have hpb : (0 : ℚ) < (2 : ℚ) ^ natLog2 d := by positivity
  have hpb1 : (0 : ℚ) < (2 : ℚ) ^ (natLog2 d + 1) := by positivity
  unfold ratFloorLog2
  by_cases hc : d * 2 ^ natLog2 n ≤ n * 2 ^ natLog2 d
  · rw [if_pos hc]
    constructor
    · rw [zpow_sub_cast, div_le_div_iff₀ (by positivity) hdq]
      exact_mod_cast by
        calc (2 : Nat) ^ natLog2 n * d = d * 2 ^ natLog2 n := by ring
        _ ≤ n * 2 ^ natLog2 d := hc
    · rw [show (natLog2 n : ℤ) - natLog2 d + 1 = ((natLog2 n + 1 : Nat) : ℤ) - natLog2 d by
        push_cast; ring]
      rw [zpow_sub_cast, div_lt_div_iff₀ hdq (by positivity)]
      have key : n * 2 ^ natLog2 d < 2 ^ (natLog2 n + 1) * d := by
        calc n * 2 ^ natLog2 d < 2 ^ (natLog2 n + 1) * 2 ^ natLog2 d := by
              exact (Nat.mul_lt_mul_right (by positivity)).mpr nb
        _ ≤ 2 ^ (natLog2 n + 1) * d := Nat.mul_le_mul_left _ da
      exact_mod_cast key
  · rw [if_neg hc]
    push_neg at hc
    constructor
    · rw [show (natLog2 n : ℤ) - natLog2 d - 1 = (natLog2 n : ℤ) - ((natLog2 d + 1 : Nat) : ℤ) by
        push_cast; ring]
      rw [zpow_sub_cast, div_le_div_iff₀ (by positivity) hdq]
      have key : 2 ^ natLog2 n * d ≤ n * 2 ^ (natLog2 d + 1) := by
        calc (2 : Nat) ^ natLog2 n * d ≤ 2 ^ natLog2 n * 2 ^ (natLog2 d + 1) :=
              Nat.mul_le_mul_left _ (le_of_lt db)
        _ ≤ n * 2 ^ (natLog2 d + 1) := Nat.mul_le_mul_right _ na
      exact_mod_cast key
    · rw [show (natLog2 n : ℤ) - natLog2 d - 1 + 1 = (natLog2 n : ℤ) - natLog2 d from by
        ring]
      rw [zpow_sub_cast, div_lt_div_iff₀ hdq (by positivity)]
      exact_mod_cast by
        calc n * (2 : Nat) ^ natLog2 d < d * 2 ^ natLog2 n := hc
        _ = 2 ^ natLog2 n * d := by ring


/-- Round-half-to-even of the fraction `a / b` (for `0 < b`). -/
def rheFrac (a b : Nat) : Nat :=
  if 2 * (a % b) < b then a / b
  else if b < 2 * (a % b) then a / b + 1
  else if a / b % 2 = 0 then a / b else a / b + 1

theorem rheFrac_ge (a b : Nat) : a / b ≤ rheFrac a b := by
  unfold rheFrac; split_ifs <;> omega

theorem rheFrac_le (a b : Nat) : rheFrac a b ≤ a / b + 1 := by
  unfold rheFrac; split_ifs <;> omega

theorem natDiv_cast_le (a b : Nat) (hb : 0 < b) : ((a / b : Nat) : ℚ) ≤ (a : ℚ) / b := by
  rw [le_div_iff₀ (by exact_mod_cast hb)]
  exact_mod_cast Nat.div_mul_le_self a b

theorem lt_natDiv_cast (a b : Nat) (hb : 0 < b) : (a : ℚ) / b < (a / b : Nat) + 1 := by
  rw [div_lt_iff₀ (by exact_mod_cast hb)]
  have h1 := Nat.div_add_mod a b
  have h2 : a % b < b := Nat.mod_lt _ hb
  have h3 : (a / b + 1) * b = b * (a / b) + b := by ring
  have : a < (a / b + 1) * b := by omega
  exact_mod_cast this

theorem le_half_iff (r b : Nat) (hb : 0 < b) :
    2 * r ≤ b ↔ ((r : Nat) : ℚ) / b ≤ 1 / 2 := by
  rw [div_le_div_iff₀ (by exact_mod_cast hb) (by norm_num : (0:ℚ) < 2)]
  constructor
  · intro h
    have : ((2 * r : Nat) : ℚ) ≤ b := by exact_mod_cast h
    push_cast at this
    linarith
  · intro h
    have : ((2 * r : Nat) : ℚ) ≤ b := by push_cast; linarith
    exact_mod_cast this

theorem half_le_iff (r b : Nat) (hb : 0 < b) :
    b ≤ 2 * r ↔ (1 : ℚ) / 2 ≤ ((r : Nat) : ℚ) / b := by
  rw [div_le_div_iff₀ (by norm_num : (0:ℚ) < 2) (by exact_mod_cast hb)]
  constructor
  · intro h
    have : ((b : Nat) : ℚ) ≤ (2 * r : Nat) := by exact_mod_cast h
    push_cast at this
    linarith
  · intro h
    have : ((b : Nat) : ℚ) ≤ (2 * r : Nat) := by push_cast; linarith
    exact_mod_cast this

theorem frac_decomp (a b : Nat) (hb : 0 < b) :
    ((a % b : Nat) : ℚ) / b = (a : ℚ) / b - ((a / b : Nat) : ℚ) := by
  have hbq : ((b : Nat) : ℚ) ≠ 0 := by
    exact_mod_cast Nat.pos_iff_ne_zero.mp hb
  rw [eq_sub_iff_add_eq,
    show ((a / b : Nat) : ℚ) = ((a / b : Nat) : ℚ) * b / b from by field_simp,
    div_add_div_same]
  congr 1
  exact_mod_cast Nat.mod_add_div' a b

theorem rheFrac_mono {a b a' b' : Nat} (hb : 0 < b) (hb' : 0 < b')
    (h : (a : ℚ) / b ≤ (a' : ℚ) / b') : rheFrac a b ≤ rheFrac a' b' := by
  have hf : a / b ≤ a' / b' := by
    by_contra hcon
    push_neg at hcon
    have h1 : ((a' / b' : Nat) : ℚ) + 1 ≤ ((a / b : Nat) : ℚ) := by exact_mod_cast hcon
    have h2 := natDiv_cast_le a b hb
    have h3 := lt_natDiv_cast a' b' hb'
    linarith
  rcases Nat.lt_or_ge (a / b) (a' / b') with hlt | hge
  · have u1 := rheFrac_le a b
    have u2 := rheFrac_ge a' b'
    omega
  · have hfe : a / b = a' / b' := by omega
    have key : ((a % b : Nat) : ℚ) / b ≤ ((a' % b' : Nat) : ℚ) / b' := by
      rw [frac_decomp a b hb, frac_decomp a' b' hb']
      have : ((a / b : Nat) : ℚ) = ((a' / b' : Nat) : ℚ) := by exact_mod_cast hfe
      linarith
    by_cases c1 : 2 * (a % b) < b
    · have e : rheFrac a b = a / b := by unfold rheFrac; rw [if_pos c1]
      have := rheFrac_ge a' b'
      omega
    · push_neg at c1
      have hfr_ge : (1:ℚ)/2 ≤ ((a % b : Nat) : ℚ) / b := (half_le_iff _ _ hb).mp c1
      have hfr'_ge : (1:ℚ)/2 ≤ ((a' % b' : Nat) : ℚ) / b' := le_trans hfr_ge key
      have c1' : b' ≤ 2 * (a' % b') := (half_le_iff _ _ hb').mpr hfr'_ge
      by_cases c2 : b < 2 * (a % b)
      · have hfr_gt : (1:ℚ)/2 < ((a % b : Nat) : ℚ) / b := by
          by_contra hcg
          push_neg at hcg
          have := (le_half_iff _ _ hb).mpr hcg
          omega
        have hfr'_gt : (1:ℚ)/2 < ((a' % b' : Nat) : ℚ) / b' := lt_of_lt_of_le hfr_gt key
        have c2' : b' < 2 * (a' % b') := by
          by_contra hcon
          push_neg at hcon
          have := (le_half_iff _ _ hb').mp hcon
          linarith
        have e : rheFrac a b = a / b + 1 := by
          unfold rheFrac; rw [if_neg (by omega), if_pos c2]
        have e' : rheFrac a' b' = a' / b' + 1 := by
          unfold rheFrac; rw [if_neg (by omega), if_pos c2']
        omega
      · push_neg at c2
        by_cases c2' : b' < 2 * (a' % b')
        · have e' : rheFrac a' b' = a' / b' + 1 := by
            unfold rheFrac; rw [if_neg (by omega), if_pos c2']
          have := rheFrac_le a b
          omega
        · push_neg at c2'
          have e : rheFrac a b = if a / b % 2 = 0 then a / b else a / b + 1 := by
            unfold rheFrac; rw [if_neg (by omega), if_neg (by omega)]
          have e' : rheFrac a' b' = if a' / b' % 2 = 0 then a' / b' else a' / b' + 1 := by
            unfold rheFrac; rw [if_neg (by omega), if_neg (by omega)]
          rw [e, e', hfe]

theorem rheFrac_le_pow (a b : Nat) (hb : 0 < b) (h : (a : ℚ) / b < 2 ^ 53) :
    rheFrac a b ≤ 2 ^ 53 := by
  have h1 : (a : ℚ) < 2 ^ 53 * b := (div_lt_iff₀ (by exact_mod_cast hb)).mp h
  have h2 : a < 2 ^ 53 * b := by exact_mod_cast h1
  have h3 : a / b < 2 ^ 53 := (Nat.div_lt_iff_lt_mul hb).mpr (by omega)
  have := rheFrac_le a b
  omega

theorem rheFrac_ge_pow (a b : Nat) (hb : 0 < b) (h : (2 : ℚ) ^ 52 ≤ (a : ℚ) / b) :
    2 ^ 52 ≤ rheFrac a b := by
  have h1 : ((2 ^ 52 * b : Nat) : ℚ) ≤ a := by
    push_cast
    have := (le_div_iff₀ (by exact_mod_cast hb : (0:ℚ) < b)).mp h
    linarith
  have h2 : 2 ^ 52 * b ≤ a := by exact_mod_cast h1
  have h3 : 2 ^ 52 ≤ a / b := (Nat.le_div_iff_mul_le hb).mpr h2
  have := rheFrac_ge a b
  omega


/-- Round-to-nearest (ties to even) binary64 value of `n / d`, as an
exact dyadic rational `m * 2 ^ g` with the quantum `g` clamped at the
subnormal quantum `2 ^ (-1074)`. -/
def rnFrac (n d : Nat) : Nat × ℤ :=
  if n = 0 then (0, 0)
  else
    (rheFrac (n * 2 ^ (-(max (-1074) (ratFloorLog2 n d - 52))).toNat)
       (d * 2 ^ (max (-1074) (ratFloorLog2 n d - 52)).toNat),
     max (-1074) (ratFloorLog2 n d - 52))

/-- The rational value of a dyadic pair. -/
def dyVal (p : Nat × ℤ) : ℚ := (p.1 : ℚ) * (2 : ℚ) ^ p.2

theorem frac_scale_val (n d : Nat) (hd : 0 < d) (g : ℤ) :
    ((n * 2 ^ (-g).toNat : Nat) : ℚ) / ((d * 2 ^ g.toNat : Nat) : ℚ)
      = ((n : ℚ) / d) / (2 : ℚ) ^ g := by
  have hdq : (0 : ℚ) < (d : ℚ) := by exact_mod_cast hd
  rcases le_or_lt 0 g with hg | hg
  · have e1 : (-g).toNat = 0 := by omega
    have e2 : (2 : ℚ) ^ g = (2 : ℚ) ^ (g.toNat : ℕ) := by
      rw [← zpow_natCast, Int.toNat_of_nonneg hg]
    rw [e1, e2]
    push_cast
    rw [mul_one, div_div]
  · have e1 : g.toNat = 0 := by omega
    have e2 : (2 : ℚ) ^ g = ((2 : ℚ) ^ ((-g).toNat : ℕ))⁻¹ := by
      rw [← zpow_natCast, Int.toNat_of_nonneg (by omega : (0:ℤ) ≤ -g), zpow_neg, inv_inv]
    rw [e1, e2]
    push_cast
    have hpne : ((2 : ℚ) ^ (-g).toNat) ≠ 0 := by positivity
    have hdne : (d : ℚ) ≠ 0 := ne_of_gt hdq
    field_simp

theorem dyVal_rnFrac_nonneg (n d : Nat) : 0 ≤ dyVal (rnFrac n d) := by
  unfold rnFrac dyVal
  split
  · norm_num
  · positivity

theorem dyVal_rnFrac_mono {n d n' d' : Nat} (hd : 0 < d) (hd' : 0 < d')
    (h : (n : ℚ) / d ≤ (n' : ℚ) / d') :
    dyVal (rnFrac n d) ≤ dyVal (rnFrac n' d') := by
  by_cases hn : n = 0
  · have e : rnFrac n d = (0, 0) := by unfold rnFrac; rw [if_pos hn]
    rw [e]
    have : dyVal (0, 0) = 0 := by unfold dyVal; norm_num
    rw [this]
    exact dyVal_rnFrac_nonneg n' d'
  · have hn1 : 1 ≤ n := by omega
    have hdq : (0 : ℚ) < (d : ℚ) := by exact_mod_cast hd
    have hdq' : (0 : ℚ) < (d' : ℚ) := by exact_mod_cast hd'
    have hq : (0 : ℚ) < (n : ℚ) / d :=
      div_pos (by exact_mod_cast hn1) hdq
    have hn' : n' ≠ 0 := by
      intro h0
      rw [h0] at h
      simp only [Nat.cast_zero, zero_div] at h
      linarith
    have hn1' : 1 ≤ n' := by omega
    obtain ⟨s1, s2⟩ := ratFloorLog2_spec n d hn1 hd
    obtain ⟨s1', s2'⟩ := ratFloorLog2_spec n' d' hn1' hd'
    have hLL : ratFloorLog2 n d ≤ ratFloorLog2 n' d' := by
      by_contra hcon
      push_neg at hcon
      have hstep : ratFloorLog2 n' d' + 1 ≤ ratFloorLog2 n d := hcon
      have : (2 : ℚ) ^ (ratFloorLog2 n' d' + 1) ≤ 2 ^ ratFloorLog2 n d :=
        zpow_le_zpow_right₀ (by norm_num) hstep
      linarith
    set L := ratFloorLog2 n d with hLdef
    set L' := ratFloorLog2 n' d' with hLdef'
    set g : ℤ := max (-1074) (L - 52) with hgdef
    set g' : ℤ := max (-1074) (L' - 52) with hgdef'
    have hgle : g ≤ g' := max_le_max (le_refl _) (by omega)
    have hrn : rnFrac n d = (rheFrac (n * 2 ^ (-g).toNat) (d * 2 ^ g.toNat), g) := by
      unfold rnFrac
      rw [if_neg hn]
    have hrn' : rnFrac n' d' = (rheFrac (n' * 2 ^ (-g').toNat) (d' * 2 ^ g'.toNat), g') := by
      unfold rnFrac
      rw [if_neg hn']
    have hBpos : 0 < d * 2 ^ g.toNat := by positivity
    have hBpos' : 0 < d' * 2 ^ g'.toNat := by positivity
    have hargval := frac_scale_val n d hd g
    have hargval' := frac_scale_val n' d' hd' g'
    have h2g : (0 : ℚ) < (2 : ℚ) ^ g := zpow_pos (by norm_num) g
    have h2g' : (0 : ℚ) < (2 : ℚ) ^ g' := zpow_pos (by norm_num) g'
    rcases eq_or_lt_of_le hgle with heq | hlt
    · rw [hrn, hrn']
      unfold dyVal
      rw [← heq]
      apply mul_le_mul_of_nonneg_right _ (le_of_lt h2g)
      have harg : ((n * 2 ^ (-g).toNat : Nat) : ℚ) / ((d * 2 ^ g.toNat : Nat) : ℚ)
          ≤ ((n' * 2 ^ (-g').toNat : Nat) : ℚ) / ((d' * 2 ^ g'.toNat : Nat) : ℚ) := by
        rw [hargval, hargval', ← heq]
        gcongr
      have := rheFrac_mono hBpos hBpos' harg
      rw [← heq] at this
      exact_mod_cast this
    · have hup : dyVal (rnFrac n d) ≤ (2 : ℚ) ^ (g + 53) := by
        rw [hrn]
        unfold dyVal
        have hqlt : (n : ℚ) / d < 2 ^ (g + 53) := by
          have hstep : (L + 1 : ℤ) ≤ g + 53 := by
            have := le_max_right (-1074 : ℤ) (L - 52)
            omega
          calc (n : ℚ) / d < 2 ^ (L + 1) := s2
          _ ≤ 2 ^ (g + 53) := zpow_le_zpow_right₀ (by norm_num) hstep
        have hsplit : (2 : ℚ) ^ (g + 53) = 2 ^ (53 : ℕ) * 2 ^ g := by
          rw [← zpow_natCast (2 : ℚ) 53, ← zpow_add₀ (by norm_num : (2:ℚ) ≠ 0)]
          norm_num [add_comm]
        have hargclt : ((n * 2 ^ (-g).toNat : Nat) : ℚ) / ((d * 2 ^ g.toNat : Nat) : ℚ)
            < 2 ^ 53 := by
          rw [hargval, div_lt_iff₀ h2g]
          calc (n : ℚ) / d < 2 ^ (g + 53) := hqlt
          _ = 2 ^ (53 : ℕ) * 2 ^ g := hsplit
        have hm := rheFrac_le_pow _ _ hBpos hargclt
        calc ((rheFrac (n * 2 ^ (-g).toNat) (d * 2 ^ g.toNat) : Nat) : ℚ) * 2 ^ g
            ≤ (2 ^ (53 : ℕ) : ℚ) * 2 ^ g := by
              apply mul_le_mul_of_nonneg_right _ (le_of_lt h2g)
              exact_mod_cast hm
        _ = 2 ^ (g + 53) := hsplit.symm
      have hg'eq : g' = L' - 52 := by
        have h1 : (-1074 : ℤ) ≤ g := le_max_left _ _
        rcases max_choice (-1074 : ℤ) (L' - 52) with hmc | hmc <;> omega
      have hlow : (2 : ℚ) ^ (g' + 52) ≤ dyVal (rnFrac n' d') := by
        rw [hrn']
        unfold dyVal
        have hsplit' : (2 : ℚ) ^ (g' + 52) = 2 ^ (52 : ℕ) * 2 ^ g' := by
          rw [← zpow_natCast (2 : ℚ) 52, ← zpow_add₀ (by norm_num : (2:ℚ) ≠ 0)]
          norm_num [add_comm]
        have hq'ge : (2 : ℚ) ^ (g' + 52) ≤ (n' : ℚ) / d' := by
          calc (2 : ℚ) ^ (g' + 52) = 2 ^ L' := by
                rw [show g' + 52 = L' from by omega]
          _ ≤ (n' : ℚ) / d' := s1'
        have hargge : (2 : ℚ) ^ (52 : ℕ)
            ≤ ((n' * 2 ^ (-g').toNat : Nat) : ℚ) / ((d' * 2 ^ g'.toNat : Nat) : ℚ) := by
          rw [hargval', le_div_iff₀ h2g']
          calc (2 : ℚ) ^ (52 : ℕ) * 2 ^ g' = 2 ^ (g' + 52) := hsplit'.symm
          _ ≤ (n' : ℚ) / d' := hq'ge
        have hm := rheFrac_ge_pow _ _ hBpos' hargge
        calc (2 : ℚ) ^ (g' + 52) = (2 ^ (52 : ℕ) : ℚ) * 2 ^ g' := hsplit'
        _ ≤ ((rheFrac (n' * 2 ^ (-g').toNat) (d' * 2 ^ g'.toNat) : Nat) : ℚ) * 2 ^ g' := by
              apply mul_le_mul_of_nonneg_right _ (le_of_lt h2g')
              exact_mod_cast hm
      have hmid : (2 : ℚ) ^ (g + 53) ≤ 2 ^ (g' + 52) :=
        zpow_le_zpow_right₀ (by norm_num) (by omega)
      linarith


/-- Floor of a nonnegative dyadic `m * 2 ^ g`, as a natural number
(Python `int(...)` truncation of a nonnegative float). -/
def floorDy (p : Nat × ℤ) : Nat :=
  if 0 ≤ p.2 then p.1 * 2 ^ p.2.toNat else p.1 / 2 ^ (-p.2).toNat

theorem floorDy_eq (p : Nat × ℤ) : floorDy p = ⌊dyVal p⌋₊ := by
  unfold floorDy dyVal
  rcases le_or_lt 0 p.2 with hg | hg
  · rw [if_pos hg]
    have e : (p.1 : ℚ) * (2 : ℚ) ^ p.2 = ((p.1 * 2 ^ p.2.toNat : Nat) : ℚ) := by
      push_cast
      rw [show (2 : ℚ) ^ p.2 = (2 : ℚ) ^ (p.2.toNat : ℕ) from by
        rw [← zpow_natCast, Int.toNat_of_nonneg hg]]
    rw [e, Nat.floor_natCast]
  · rw [if_neg (by omega)]
    have e : (p.1 : ℚ) * (2 : ℚ) ^ p.2 = (p.1 : ℚ) / ((2 ^ (-p.2).toNat : Nat) : ℚ) := by
      push_cast
      rw [show (2 : ℚ) ^ p.2 = ((2 : ℚ) ^ ((-p.2).toNat : ℕ))⁻¹ from by
        rw [← zpow_natCast, Int.toNat_of_nonneg (by omega : (0:ℤ) ≤ -p.2), zpow_neg, inv_inv],
        div_eq_mul_inv]
    rw [e, Nat.floor_div_nat, Nat.floor_natCast]

/-- The exact product `dyVal p * 100` as a fraction of naturals. -/
def times100Frac (p : Nat × ℤ) : Nat × Nat :=
  (100 * p.1 * 2 ^ p.2.toNat, 2 ^ (-p.2).toNat)

theorem times100Frac_val (p : Nat × ℤ) :
    (((times100Frac p).1 : Nat) : ℚ) / (((times100Frac p).2 : Nat) : ℚ)
      = 100 * dyVal p := by
  unfold times100Frac dyVal
  rcases le_or_lt 0 p.2 with hg | hg
  · have e1 : (-p.2).toNat = 0 := by omega
    have e2 : (2 : ℚ) ^ p.2 = (2 : ℚ) ^ (p.2.toNat : ℕ) := by
      rw [← zpow_natCast, Int.toNat_of_nonneg hg]
    rw [e1, e2]
    push_cast
    ring
  · have e1 : p.2.toNat = 0 := by omega
    have e2 : (2 : ℚ) ^ p.2 = ((2 : ℚ) ^ ((-p.2).toNat : ℕ))⁻¹ := by
      rw [← zpow_natCast, Int.toNat_of_nonneg (by omega : (0:ℤ) ≤ -p.2), zpow_neg, inv_inv]
    rw [e1, e2]
    push_cast
    have hpne : ((2 : ℚ) ^ (-p.2).toNat) ≠ 0 := by positivity
    field_simp

/-- Python `int((fp / total) * 100)` evaluated in IEEE-754 binary64
arithmetic (round to nearest, ties to even): round the quotient, scale
by the exactly-representable 100, round the product, truncate. -/
def pyFloatProgress (fp total : Nat) : Nat :=
  floorDy (rnFrac (times100Frac (rnFrac fp total)).1 (times100Frac (rnFrac fp total)).2)

theorem pyFloatProgress_mono (total : Nat) (ht : 0 < total) {fp fp' : Nat}
    (h : fp ≤ fp') : pyFloatProgress fp total ≤ pyFloatProgress fp' total := by
  unfold pyFloatProgress
  rw [floorDy_eq, floorDy_eq]
  apply Nat.floor_mono
  apply dyVal_rnFrac_mono (by unfold times100Frac; positivity) (by unfold times100Frac; positivity)
  rw [times100Frac_val, times100Frac_val]
  have h1 : dyVal (rnFrac fp total) ≤ dyVal (rnFrac fp' total) := by
    apply dyVal_rnFrac_mono ht ht
    gcongr
  linarith

/-! ## IngestionQueue: `FileProcessor` (`file_processor.py`).

`process_files` (lines 61-98) enqueues every existing submitted path
and, for a path with an existing same-base-name `.txt` sidecar,
additionally enqueues that sidecar right after it.  `run`
(lines 123-232) drains the queue: `total_files` starts as the queue
size; a dequeued image file (extension in {.jpg, .jpeg, .png, .gif},
lowercased) is copied into the session workspace, its sidecar caption
(if any) is read, stripped and upserted into the `captions` table
keyed by the destination base name, and a FileRecord is appended; a
dequeued non-image file is skipped; a dequeued directory is walked,
its image files are sorted and enqueued at the back and `total_files`
grows by their number.  After every dequeued entry `files_processed`
is incremented and `int((files_processed / total_files) * 100)` is
recorded; after the loop the progress is set to 100 and held there.

Filesystem abstraction: a file is `(name, size, sidecar)`, where
`name` is its base name (paths are abstracted to base names: every
copy lands in one flat session directory) and `sidecar` holds the
contents of the same-base-name `.txt` next to the source, when that
exists.  Copies are assumed to succeed, and directories are assumed
to have no same-base-name `.txt` of their own.  The percentage
`int((files_processed / total_files) * 100)` is computed through the
exact binary64 model `pyFloatProgress` above; it can fall one below
the exact rational floor (`int((29 / 50) * 100)` is `57`, while
`29 * 100 / 50 = 58`). -/

/-- A source file: base name, size, optional sidecar-`.txt` contents. -/
structure SrcFile where
  name : String
  size : Nat
  sidecar : Option String
deriving DecidableEq

/-- A queue entry: a file path, or a directory path holding the files
`os.walk` would enumerate. -/
inductive QEntry where
  | file (f : SrcFile)
  | dir (files : List SrcFile)
deriving DecidableEq

/-- `os.path.splitext(name)[1]`: the extension from the last dot,
`""` when there is no dot (the leading-dot special case of `splitext`
does not arise for the names used here). -/
def extOf (s : String) : String :=
  let r := s.data.reverse
  if r.contains '.' then String.mk ('.' :: (r.takeWhile (fun c => c != '.')).reverse)
  else ""

/-- `os.path.splitext(name)[0]`. -/
def stripExt (s : String) : String :=
  let r := s.data.reverse
  if r.contains '.' then String.mk (((r.dropWhile (fun c => c != '.')).drop 1).reverse)
  else s

/-- The extension allowlist check `ext.lower() in {'.jpg', '.jpeg',
'.png', '.gif'}`. -/
def hasImageExt (name : String) : Bool :=
  [".jpg", ".jpeg", ".png", ".gif"].contains (pyLower (extOf name))

/-- Lexicographic order on code points, as Python compares strings. -/
def charListLt : List Char → List Char → Bool
  | _, [] => false
  | [], _ :: _ => true
  | a :: as, b :: bs =>
      if a < b then true else if b < a then false else charListLt as bs

def strLt (a b : String) : Bool := charListLt a.data b.data

def insertByName (f : SrcFile) : List SrcFile → List SrcFile
  | [] => [f]
  | g :: t => if strLt f.name g.name then f :: g :: t else g :: insertByName f t

/-- `image_files.sort()` (insertion sort; the walked paths are
distinct, so tie behaviour is irrelevant). -/
def sortByName : List SrcFile → List SrcFile
  | [] => []
  | f :: t => insertByName f (sortByName t)

/-- `os.walk` + extension filter + sort (`file_processor.py` lines
203-217): the image files found in a directory, in sorted order. -/
def expandDir (files : List SrcFile) : List SrcFile :=
  sortByName (files.filter (fun f => hasImageExt f.name))

/-- A FileRecord (`path` abstracted to the base name). -/
structure FileRecord where
  name : String
  size : Nat
  hasCaption : Bool
deriving DecidableEq

/-- The mutable state of one `FileProcessor.run` invocation.  `trace`
records every progress value stored into `current_progress`, in
order. -/
structure RunSt where
  filesProcessed : Nat
  totalFiles : Nat
  records : List FileRecord
  captions : CaptionsTable
  workspace : List String
  trace : List Nat
  progress : Nat
deriving DecidableEq

/-- `files_processed += 1` followed by the progress computation of
lines 222-223, `int((files_processed / total_files) * 100)` in
binary64 arithmetic (`pyFloatProgress`). -/
def reportStep (st : RunSt) : RunSt :=
  let fp := st.filesProcessed + 1
  let p := if st.totalFiles > 0 then pyFloatProgress fp st.totalFiles else 0
  { st with filesProcessed := fp, progress := p, trace := st.trace ++ [p] }

/-- Processing one dequeued image file (lines 139-197): copy into the
workspace, import the stripped sidecar caption keyed by the
destination base name, append the FileRecord with
`hasCaption = (sidecar exists)`. -/
def stepImageFile (f : SrcFile) (st : RunSt) : RunSt :=
  { st with
    workspace := st.workspace ++ [f.name]
    captions := match f.sidecar with
      | some txt => saveCaption st.captions f.name (pyStrip txt)
      | none => st.captions
    records := st.records ++
      [{ name := f.name, size := f.size, hasCaption := f.sidecar.isSome }] }

/-- How many dequeue iterations an entry eventually costs: a directory
is dequeued once and enqueues its images. -/
def entryWeight : QEntry → Nat
  | .file _ => 1
  | .dir files => 1 + (expandDir files).length

def queueWeight (q : List QEntry) : Nat := (q.map entryWeight).sum

/-- The drain loop of `FileProcessor.run` (lines 129-228).  The fuel
counts dequeue iterations; `queueWeight` of the initial queue is
exactly the number of iterations the source loop performs (after the
`os.walk` filter an expansion enqueues only plain files, never further
directories), so the source loop's termination is mirrored by running
out of fuel exactly when the queue empties. -/
def runLoop : Nat → List QEntry → RunSt → RunSt
  | 0, _, st => st
  | _ + 1, [], st => st
  | fuel + 1, .file f :: rest, st =>
      if hasImageExt f.name then
        runLoop fuel rest (reportStep (stepImageFile f st))
      else
        runLoop fuel rest (reportStep st)
  | fuel + 1, .dir files :: rest, st =>
      runLoop fuel (rest ++ (expandDir files).map QEntry.file)
        (reportStep { st with totalFiles := st.totalFiles + (expandDir files).length })

/-- `FileProcessor.process_files`: enqueue each submitted (existing)
path; for a file with a sidecar, enqueue the sidecar `.txt` file right
after it. -/
def processFiles (items : List QEntry) : List QEntry :=
  (items.map (fun e => match e with
    | .file f => match f.sidecar with
      | some _ => [QEntry.file f,
          QEntry.file { name := stripExt f.name ++ ".txt", size := 0, sidecar := none }]
      | none => [QEntry.file f]
    | .dir files => [QEntry.dir files])).flatten

/-- The state at the top of `FileProcessor.run`: counters zeroed,
`total_files = queue.qsize()`, empty session tables. -/
def initSt (total : Nat) : RunSt :=
  { filesProcessed := 0, totalFiles := total, records := [], captions := [],
    workspace := [], trace := [], progress := 0 }

/-- `FileProcessor.run`: drain the queue, then set (and hold) the
progress at 100 (line 232). -/
def run (q : List QEntry) : RunSt :=
  { runLoop (queueWeight q) q (initSt q.length) with progress := 100 }

/-! ## Lemmas about the ingestion run -/

theorem run_trace (q : List QEntry) :
    (run q).trace = (runLoop (queueWeight q) q (initSt q.length)).trace := rfl

theorem runLoop_zero (q : List QEntry) (st : RunSt) : runLoop 0 q st = st := rfl

theorem runLoop_file_cons (fuel : Nat) (f : SrcFile) (rest : List QEntry) (st : RunSt) :
    runLoop (fuel + 1) (QEntry.file f :: rest) st =
      if hasImageExt f.name then
        runLoop fuel rest (reportStep (stepImageFile f st))
      else runLoop fuel rest (reportStep st) := rfl

theorem shift_map_range (v : Nat → Nat) (n : Nat) :
    [v 0] ++ (List.range n).map (fun k => v (k + 1)) = (List.range (n + 1)).map v := by
  rw [List.range_succ_eq_map, List.map_cons, List.map_map]
  rfl

theorem queueWeight_files (fs : List SrcFile) :
    queueWeight (fs.map QEntry.file) = fs.length := by
  induction fs with
  | nil => rfl
  | cons f t ih =>
    simp only [queueWeight, List.map_cons, List.sum_cons, List.length_cons,
      entryWeight] at ih ⊢
    omega

/-- The progress values reported by a run over a queue of plain files:
the `k`-th dequeue reports
`int(((filesProcessed + k + 1) / totalFiles) * 100)` in binary64
arithmetic (with `totalFiles` never changing, since only directories
grow it). -/
theorem runLoop_files_trace (fs : List SrcFile) :
    ∀ st : RunSt,
      (runLoop fs.length (fs.map QEntry.file) st).trace =
        st.trace ++ (List.range fs.length).map
          (fun k => if st.totalFiles > 0
            then pyFloatProgress (st.filesProcessed + k + 1) st.totalFiles else 0) := by
  induction fs with
  | nil =>
    intro st
    rw [List.length_nil, List.map_nil, runLoop_zero]
    simp
  | cons f t ih =>
    intro st
    have key : ∀ st' : RunSt, st'.totalFiles = st.totalFiles →
        st'.filesProcessed = st.filesProcessed + 1 →
        st'.trace = st.trace ++ [if st.totalFiles > 0
            then pyFloatProgress (st.filesProcessed + 1) st.totalFiles else 0] →
        (runLoop t.length (t.map QEntry.file) st').trace
          = st.trace ++ (List.range (t.length + 1)).map
              (fun k => if st.totalFiles > 0
                then pyFloatProgress (st.filesProcessed + k + 1) st.totalFiles else 0) := by
      intro st' h1 h2 h3
      have hshift : (fun k : Nat => if st.totalFiles > 0
            then pyFloatProgress (st.filesProcessed + 1 + k + 1) st.totalFiles else 0)
          = (fun k : Nat => if st.totalFiles > 0
            then pyFloatProgress (st.filesProcessed + (k + 1) + 1) st.totalFiles else 0) := by
        funext k
        have e : st.filesProcessed + 1 + k + 1 = st.filesProcessed + (k + 1) + 1 := by
          omega
        rw [e]
      rw [ih st', h1, h2, h3, hshift, List.append_assoc]
      exact congrArg (fun l => st.trace ++ l)
        (shift_map_range (fun k => if st.totalFiles > 0
          then pyFloatProgress (st.filesProcessed + k + 1) st.totalFiles else 0) t.length)
    rw [List.length_cons, List.map_cons, runLoop_file_cons]
    cases hasImageExt f.name with
    | true => rw [if_pos rfl]; exact key _ rfl rfl rfl
    | false => rw [if_neg (by simp)]; exact key _ rfl rfl rfl

theorem chain'_float_map (n total : Nat) :
    List.Chain' (· ≤ ·) ((List.range n).map
      (fun k => if 0 < total then pyFloatProgress (k + 1) total else 0)) := by
  rw [List.chain'_map]
  cases n with
  | zero => simp
  | succ m =>
    rw [List.chain'_range_succ]
    intro i hi
    by_cases h : 0 < total
    · rw [if_pos h, if_pos h]
      exact pyFloatProgress_mono total h (by omega)
    · rw [if_neg h, if_neg h]

/-! ## Theorems for claims C5 and C6 -/

/-- The submission of the C5 counterexample: one image file followed
by one directory holding three images. -/
def c5Submission : List QEntry :=
  [QEntry.file ⟨"a.jpg", 1, none⟩,
   QEntry.dir [⟨"p1.jpg", 1, none⟩, ⟨"p2.jpg", 1, none⟩, ⟨"p3.jpg", 1, none⟩]]

/-- Claim C5, counterexample.  Two failures of the claim, both in the
binary64 model of `int((files_processed / total_files) * 100)`:
(1) submitting `[a.jpg, dir]` where `dir` holds three images makes
the run report the sequence `50, 40, 60, 80, 100` — the directory
expansion grows `total_files` from 2 to 5 and the report after it
drops from 50 to 40 — so the reported sequence is not monotonically
non-decreasing; (2) the reported value is not
`floor(processedCount / totalCount * 100)`: in a run over 50 plain
files the 29th report (index 28) is `int((29 / 50) * 100) = 57`
(the double nearest to `0.58` is below it, and `0.58 * 100` rounds to
`57.999...996`), while the exact floor is `29 * 100 / 50 = 58`. -/
theorem c5_counterexample :
    (run (processFiles c5Submission)).trace = [50, 40, 60, 80, 100] ∧
    ¬ List.Chain' (· ≤ ·) ((run (processFiles c5Submission)).trace) ∧
    ((run (List.replicate 50 (QEntry.file ⟨"f.jpg", 1, none⟩))).trace)[28]?
      = some 57 ∧
    29 * 100 / 50 = 58 := by
  have ht : (run (processFiles c5Submission)).trace = [50, 40, 60, 80, 100] := rfl
  refine ⟨ht, ?_, by decide, by decide⟩
  rw [ht]
  intro h
  have h50 := (List.chain'_cons.mp h).1
  omega

/-- Claim C5, amended: within one run the reported progress equals
`int((processedCount / totalCount) * 100)` computed in IEEE-754
binary64 arithmetic over the current counts (which can fall one below
the exact rational floor, see the counterexample) and is held at 100
after the queue drains; the sequence of reported values is
monotonically non-decreasing provided the submission contains no
directories (here: a queue of plain files, which is what
`process_files` produces for file-only submissions, including their
enqueued sidecars) — correctly rounded operations are monotone, so the
float computation is monotone in `processedCount` while `totalCount`
is fixed.  A directory expanded mid-run after files have already been
processed grows `totalCount` and can strictly decrease the reported
percentage (see the counterexample). -/
theorem c5_amended (fs : List SrcFile) :
    List.Chain' (· ≤ ·) ((run (fs.map QEntry.file)).trace) ∧
    (run (fs.map QEntry.file)).trace
      = (List.range fs.length).map (fun k => pyFloatProgress (k + 1) fs.length) ∧
    (run (fs.map QEntry.file)).progress = 100 := by
  have htr : (run (fs.map QEntry.file)).trace
      = (List.range fs.length).map
          (fun k => if 0 < fs.length then pyFloatProgress (k + 1) fs.length else 0) := by
    rw [run_trace, queueWeight_files, List.length_map,
      runLoop_files_trace fs (initSt fs.length)]
    simp [initSt]
  refine ⟨?_, ?_, rfl⟩
  · rw [htr]
    exact chain'_float_map fs.length fs.length
  · rw [htr]
    rcases Nat.eq_zero_or_pos fs.length with h | h
    · rw [h]; rfl
    · have hf : (fun k => if 0 < fs.length then pyFloatProgress (k + 1) fs.length else 0)
          = (fun k => pyFloatProgress (k + 1) fs.length) := funext fun k => if_pos h
      rw [hf]

/-- The submitted directory of claim C6: `x.png`, `y.jpg` (whose
same-base-name sidecar `y.txt` holds `txt`), and the `y.txt` file
itself. -/
def c6Dir (sx sy sz : Nat) (txt : String) : List QEntry :=
  [QEntry.dir
    [⟨"x.png", sx, none⟩, ⟨"y.jpg", sy, some txt⟩, ⟨"y.txt", sz, none⟩]]

/-- Claim C6: ingesting a directory containing exactly `x.png`,
`y.jpg` and `y.txt` produces exactly two FileRecords — `x.png` with
`hasCaption = false` and `y.jpg` with `hasCaption = true` (`y.txt` is
filtered out by the image-extension allowlist) — both images are
copied into the session workspace, and the persisted caption row for
`y.jpg` equals the whitespace-stripped contents of `y.txt`. -/
theorem c6_directory_ingestion (sx sy sz : Nat) (txt : String) :
    (run (processFiles (c6Dir sx sy sz txt))).records
      = [⟨"x.png", sx, false⟩, ⟨"y.jpg", sy, true⟩] ∧
    (run (processFiles (c6Dir sx sy sz txt))).workspace = ["x.png", "y.jpg"] ∧
    lookupCaption (run (processFiles (c6Dir sx sy sz txt))).captions "y.jpg"
      = some (pyStrip txt) :=
  ⟨rfl, rfl, rfl⟩

end Sage
